import Mathlib

/-!
Verification of the daily work-plan scheduler of PlanPilot-Backend
(file app/service/analysis_service.py: methods generate_day_plan,
log_completed_tasks, get_current_day_plan), as a shallow embedding.

Modelling conventions:
* Python numbers (task hour estimates, hour budgets) are rationals `ℚ`;
  every concrete input used below is an integer, where Python integer and
  rational arithmetic agree exactly.
* Python dates are absolute day indices `Nat`; the weekday method is
  `d % 7`, with index 0 standing for Monday (the Python convention), so an
  index divisible by 7 is a Monday.  2024-01-01, a Monday, is index 0 and
  2024-01-08 is index 7.
* The stored Project row is a record of exactly the fields that
  `generate_day_plan` and `log_completed_tasks` read or write.
  String-typed estimate columns (`base_hours_required`,
  `total_duration_days`) are `Option String`; a raw backlog element is
  either a plain string or a record with keys `task` and (optionally)
  `estimated_hours`, hence `Option ℚ`.
* Python exceptions become `Except PyError`; the SQLAlchemy session is a
  list of `(id, Project)` rows passed and returned explicitly.
* The unbounded loop `while days_added < day_number` is modelled with
  explicit fuel (`calRun`); a `none` date means the source loop does not
  terminate within the given fuel.  `generate_day_plan` uses fuel
  `7 * day_number`, which is proved sufficient whenever the effective
  `working_days_per_week` value is at least 1.
* The rendered strings of the returned dict, namely `day`
  ("Day {n}") and `message` ("Plan for Day {n} - {formatted date}"),
  are injective images of the `dayNumber` and `date` fields kept here, so
  equality and difference of plans transfer to the rendered dicts; they
  are not re-rendered in the model.
-/

namespace PlanPilot

/-- A canonical task dict with keys `task` and `estimated_hours`, as it
flows through the assignment loop of `generate_day_plan`. -/
structure TaskEntry where
  task : String
  estimated_hours : ℚ
deriving DecidableEq, Repr

/-- One element of the stored `developer_tasks` backlog: either a plain
string (legacy shape) or a record with a `task` key and an optional
`estimated_hours` key. -/
inductive RawTask where
  | rstr (s : String)
  | rrec (task : String) (estimated_hours : Option ℚ)
deriving DecidableEq, Repr

/-- Whether a raw backlog element is a plain string. -/
def RawTask.isStr : RawTask → Bool
  | .rstr _ => true
  | _ => false

/-- Whether a raw backlog element is a record. -/
def RawTask.isRec : RawTask → Bool
  | .rrec _ _ => true
  | _ => false

/-- One `completion_log` entry, as written by `log_completed_tasks`
(keys `day`, `completed_hours`, `completed_tasks`, `carryover`).
The field `completed_tasks` holds the `task` fields of its dicts, which is
all the scan in `generate_day_plan` reads. -/
structure LogEntry where
  day : Nat
  completed_hours : List (String × ℚ)
  completed_tasks : List String
  carryover : List String
deriving DecidableEq, Repr

/-- The fields of the stored Project row that the scheduler reads or
writes. -/
structure Project where
  developer_tasks : List RawTask
  base_hours_required : Option String
  total_duration_days : Option String
  start_date : Option Nat
  completion_log : List LogEntry
  current_day : Option Nat
deriving DecidableEq, Repr

/-- Failure modes.  The source raises a generic Exception for a missing
project and a Python TypeError for mixed-shape backlogs;
`malformedBacklog` and `outOfOrderDay` are the failures named by the
error taxonomy of the spec, included so that theorems can state that the
code never produces them. -/
inductive PyError where
  | projectNotFound
  | typeError
  | malformedBacklog
  | outOfOrderDay
deriving DecidableEq, Repr

/-- The regex search of extract_int: the first maximal run of decimal
digits in a string. -/
def firstNat (s : String) : Option Nat :=
  let ds := ((s.toList.dropWhile (fun c => ¬ c.isDigit)).takeWhile Char.isDigit)
  if ds.isEmpty then none
  else some (ds.foldl (fun n c => 10 * n + (c.toNat - 48)) 0)

/-- extract_int(value, default) from generate_day_plan: `default` when
the value is falsy (absent column or empty string), else the first digit
run of the string, else `default`. -/
def extract_int (value : Option String) (default : Nat) : Nat :=
  match value with
  | none => default
  | some s => if s = "" then default else (firstNat s).getD default

/-- A string entry upgraded by the wrapping comprehension of
generate_day_plan: a task dict with the string as name and a default
estimate of 1. -/
def strToTask : RawTask → Option TaskEntry
  | .rstr s => some ⟨s, 1⟩
  | _ => none

/-- A record entry read by the loop: the `task` field and the
`estimated_hours` field defaulted to 1 when absent. -/
def recToTask : RawTask → Option TaskEntry
  | .rrec n e => some ⟨n, e.getD 1⟩
  | _ => none

/-- Backlog intake of generate_day_plan (lines 245-250 together with the
field accesses of the assignment loop).  If the first element is a
string, the code wraps every element as a task dict with estimate 1; a
record element in that case makes the task name a dict, which fails with
TypeError at the unhashable set-membership test.  If the first element is
a record, a later plain-string element fails with TypeError at the task
field access.  Records take `estimated_hours` verbatim, defaulting to 1
when the key is absent; no positivity or shape validation exists. -/
def normalizeTasks : List RawTask → Except PyError (List TaskEntry)
  | [] => .ok []
  | t :: ts =>
    match t with
    | .rstr _ =>
      if (t :: ts).all RawTask.isStr then .ok ((t :: ts).filterMap strToTask)
      else .error .typeError
    | .rrec _ _ =>
      if (t :: ts).all RawTask.isRec then .ok ((t :: ts).filterMap recToTask)
      else .error .typeError

/-- Decimal rendering of an hour amount inside an f-string.  Every value
rendered in the claims below is an integer, where Python prints the plain
decimal numeral. -/
def hoursStr (q : ℚ) : String :=
  if q.den = 1 then toString q.num else toString q

/-- Carryover note for a partially assigned task: the task name followed
by the remaining hours and " hour(s) left". -/
def noteLeft (name : String) (remaining : ℚ) : String :=
  name ++ " (" ++ hoursStr remaining ++ " hour(s) left)"

/-- Carryover note for a task receiving no hours today: the task name
followed by its full estimate and " hour(s)". -/
def noteRest (name : String) (est : ℚ) : String :=
  name ++ " (" ++ hoursStr est ++ " hour(s))"

/-- The greedy assignment loop of generate_day_plan (lines 291-309):
returns (today_tasks, carryover_today, hours_left) after consuming the
pending list in order against the remaining budget. -/
def buildDay : List TaskEntry → ℚ → List TaskEntry × List String × ℚ
  | [], hoursLeft => ([], [], hoursLeft)
  | t :: rest, hoursLeft =>
    if t.estimated_hours ≤ hoursLeft then
      let r := buildDay rest (hoursLeft - t.estimated_hours)
      (⟨t.task, t.estimated_hours⟩ :: r.1, r.2.1, r.2.2)
    else if 0 < hoursLeft then
      let r := buildDay rest 0
      (⟨t.task, hoursLeft⟩ :: r.1, noteLeft t.task (t.estimated_hours - hoursLeft) :: r.2.1, r.2.2)
    else
      let r := buildDay rest hoursLeft
      (r.1, noteRest t.task t.estimated_hours :: r.2.1, r.2.2)

/-- One iteration of the calendar loop: step one calendar day, and count
it as a working day exactly when its weekday index is below
working_days_per_week.  The state is (offset from start_date, days_added). -/
def calStep (startW wdpw : Nat) (st : Nat × Nat) : Nat × Nat :=
  let offset := st.1 + 1
  let added := if (startW + offset) % 7 < wdpw then st.2 + 1 else st.2
  (offset, added)

/-- The fueled calendar loop `while days_added < day_number`; `none` means
the source loop does not terminate within the given fuel. -/
def calRun (startW wdpw dayNumber : Nat) : Nat → Nat × Nat → Option Nat
  | 0, st => if st.2 < dayNumber then none else some st.1
  | fuel + 1, st =>
    if st.2 < dayNumber then calRun startW wdpw dayNumber fuel (calStep startW wdpw st)
    else some st.1

/-- The calendar advance from state (offset, days_added) = (0, 1): the
number of calendar days between start_date and the date of the given day
number. -/
def dateForDayOffset (startW wdpw dayNumber : Nat) : Option Nat :=
  calRun startW wdpw dayNumber (7 * dayNumber) (0, 1)

/-- Iterating `calStep` a given number of times (for reasoning about the
fueled loop). -/
def iterSteps (sw wdpw : Nat) : Nat → Nat × Nat → Nat × Nat
  | 0, st => st
  | n + 1, st => iterSteps sw wdpw n (calStep sw wdpw st)

/-- The completed-task scan over the whole log (lines 284-286): every task
name of every entry, used only for membership. -/
def completedTaskSet (lg : List LogEntry) : List String :=
  (lg.map LogEntry.completed_tasks).flatten

/-- The carryover scan over the whole log (lines 287-288): concatenation
of the carryover lists of all entries, in log order. -/
def carryoverList (lg : List LogEntry) : List String :=
  (lg.map LogEntry.carryover).flatten

/-- The returned plan.  `date` is the absolute day index of the computed
date (`none` when the calendar loop diverges); the rendered `day` and
`message` strings are functions of `dayNumber` and `date`. -/
structure DayPlan where
  dayNumber : Nat
  date : Option Nat
  planned_hours : ℚ
  tasks : List TaskEntry
  carryover_from_previous_days : List String
deriving DecidableEq, Repr

/-- AnalysisService.generate_day_plan on a loaded project row.  `now`
stands for datetime.utcnow(), used only when neither the argument nor the
stored start date is present.  Note that the returned carryover list is
the log scan `carryover`, not the locally computed carryover_today, and
that the hour budget and week length are extracted from the
`base_hours_required` and `total_duration_days` estimate columns. -/
def generate_day_plan (project : Project) (start_arg : Option Nat) (now : Nat)
    (day_number : Nat) : Except PyError DayPlan :=
  let daily_hours : Nat := extract_int project.base_hours_required 4
  let wdpw : Nat := extract_int project.total_duration_days 5
  match normalizeTasks project.developer_tasks with
  | .error e => .error e
  | .ok tasks =>
    let startAbs : Nat := (start_arg.orElse (fun _ => project.start_date)).getD now
    let dateOff : Option Nat := calRun (startAbs % 7) wdpw day_number (7 * day_number) (0, 1)
    let completed := completedTaskSet project.completion_log
    let carryover := carryoverList project.completion_log
    let pending := tasks.filter (fun t => ! (completed.contains t.task))
    let built := buildDay pending (daily_hours : ℚ)
    .ok { dayNumber := day_number
          date := dateOff.map (fun off => startAbs + off)
          planned_hours := (daily_hours : ℚ)
          tasks := built.1
          carryover_from_previous_days := carryover }

/-- The record store: SQLAlchemy rows (project id, Project). -/
abbrev DB := List (Nat × Project)

/-- The query filtering projects by id and taking the first row. -/
def findProject (db : DB) (pid : Nat) : Option Project :=
  (db.find? (fun x => x.1 == pid)).map (fun x => x.2)

/-- Committing a modified row back to the store. -/
def updateProject (db : DB) (pid : Nat) (p : Project) : DB :=
  db.map (fun x => if x.1 == pid then (pid, p) else x)

/-- generate_day_plan at the store level: a read-only query followed by a
pure computation; the store is returned unchanged (the source performs no
assignment and no commit in this method). -/
def generate_day_plan_db (db : DB) (pid : Nat) (start_arg : Option Nat)
    (now day_number : Nat) : Except PyError DayPlan × DB :=
  match findProject db pid with
  | none => (.error .projectNotFound, db)
  | some p => (generate_day_plan p start_arg now day_number, db)

/-- AnalysisService.log_completed_tasks (lines 320-334): append one entry
carrying the raw payload with empty completed_tasks and carryover
placeholders, set current_day to day_number + 1, commit.  No sequencing
check of any kind is performed. -/
def log_completed_tasks (db : DB) (pid : Nat) (day_number : Nat)
    (completed_hours : List (String × ℚ)) : Except PyError DB :=
  match findProject db pid with
  | none => .error .projectNotFound
  | some p =>
    let entry : LogEntry :=
      { day := day_number, completed_hours := completed_hours
        completed_tasks := [], carryover := [] }
    .ok (updateProject db pid
      { p with completion_log := p.completion_log ++ [entry]
               current_day := some (day_number + 1) })

/-- AnalysisService.get_current_day_plan (lines 336-343): re-plan at the
stored current_day pointer defaulted to 1 (the Python `or` sends both a
missing and a zero pointer to 1), with no explicit start date. -/
def get_current_day_plan_db (db : DB) (pid : Nat) (now : Nat) :
    Except PyError DayPlan × DB :=
  match findProject db pid with
  | none => (.error .projectNotFound, db)
  | some p =>
    let dn := match p.current_day with
      | none => 1
      | some n => if n = 0 then 1 else n
    (generate_day_plan p none now dn, db)

/-- Total hours of a task list (for budget conservation). -/
def sumHours (ts : List TaskEntry) : ℚ :=
  (ts.map TaskEntry.estimated_hours).sum

/-- Project for the C1 counterexample: one-task backlog, empty log. -/
def C1projA : Project :=
  { developer_tasks := [.rrec "A" (some 2)], base_hours_required := none
    total_duration_days := none, start_date := some 0, completion_log := []
    current_day := none }

/-- Log entry with day number 5 marking task A completed. -/
def C1entry : LogEntry :=
  { day := 5, completed_hours := [], completed_tasks := ["A"], carryover := [] }

/-- C1projA with the day-5 entry added, all else equal. -/
def C1projB : Project := { C1projA with completion_log := [C1entry] }

/-- Project for the C2 scenario of the spec: backlog Design 5, Build 10,
Test 3 and effective daily_hours 4 (the default, since
base_hours_required is absent), with an empty completion log. -/
def C2proj : Project :=
  { developer_tasks := [.rrec "Design" (some 5), .rrec "Build" (some 10), .rrec "Test" (some 3)]
    base_hours_required := none, total_duration_days := none
    start_date := some 0, completion_log := [], current_day := none }

/-- Project for the C3 counterexample: empty log, pointer at day 1. -/
def C3proj : Project :=
  { developer_tasks := [.rrec "A" (some 2)], base_hours_required := none
    total_duration_days := none, start_date := some 0, completion_log := []
    current_day := some 1 }

/-- Store holding C3proj under id 1. -/
def C3db : DB := [(1, C3proj)]

/-- Project for the C4 failing input: the estimate columns hold the
LLM-produced strings "120 hours" and "30 working days"; the start date
index 5 is a Saturday. -/
def C4proj : Project :=
  { developer_tasks := [.rrec "A" (some 2)]
    base_hours_required := some "120 hours"
    total_duration_days := some "30 working days"
    start_date := some 5, completion_log := [], current_day := none }

/-- Project for the C9 witness. -/
def C9proj : Project :=
  { developer_tasks := [.rrec "A" (some 2)], base_hours_required := none
    total_duration_days := none, start_date := some 0, completion_log := []
    current_day := some 1 }

/-- Store holding C9proj under id 7. -/
def C9db : DB := [(7, C9proj)]

/-- Unfolding lemma for sumHours on a cons cell. -/
theorem sumHours_cons (t : TaskEntry) (ts : List TaskEntry) :
    sumHours (t :: ts) = t.estimated_hours + sumHours ts := by
  simp [sumHours]

/-- Loop invariant of the greedy builder: assigned hours plus the leftover
budget equal the starting budget, and the leftover budget stays
non-negative, given non-negative estimates and budget. -/
theorem buildDay_sum_budget (pending : List TaskEntry) :
    ∀ B : ℚ, (∀ t ∈ pending, 0 ≤ t.estimated_hours) → 0 ≤ B →
      sumHours (buildDay pending B).1 + (buildDay pending B).2.2 = B ∧
        0 ≤ (buildDay pending B).2.2 := by
  induction pending with
  | nil => intro B _ hB; simpa [buildDay, sumHours] using hB
  | cons t rest ih =>
    intro B hT hB
    have ht : 0 ≤ t.estimated_hours := hT t (List.mem_cons_self t rest)
    have hrest : ∀ u ∈ rest, 0 ≤ u.estimated_hours :=
      fun u hu => hT u (List.mem_cons_of_mem t hu)
    by_cases h1 : t.estimated_hours ≤ B
    · have h2 := ih (B - t.estimated_hours) hrest (by linarith)
      simp only [buildDay, if_pos h1, sumHours_cons]
      exact ⟨by linarith [h2.1], h2.2⟩
    · by_cases h3 : 0 < B
      · have h2 := ih 0 hrest le_rfl
        simp only [buildDay, if_neg h1, if_pos h3, sumHours_cons]
        exact ⟨by linarith [h2.1], h2.2⟩
      · have h2 := ih B hrest hB
        simp only [buildDay, if_neg h1, if_neg h3]
        exact h2

/-- With a zero budget and non-negative estimates the builder ends with a
zero leftover budget. -/
theorem buildDay_budget_zero (pending : List TaskEntry)
    (hT : ∀ t ∈ pending, 0 ≤ t.estimated_hours) :
    (buildDay pending 0).2.2 = 0 := by
  induction pending with
  | nil => rfl
  | cons t rest ih =>
    have ht : 0 ≤ t.estimated_hours := hT t (List.mem_cons_self t rest)
    have hrest : ∀ u ∈ rest, 0 ≤ u.estimated_hours :=
      fun u hu => hT u (List.mem_cons_of_mem t hu)
    by_cases h1 : t.estimated_hours ≤ 0
    · have ht0 : t.estimated_hours = 0 := le_antisymm h1 ht
      simp only [buildDay, if_pos h1, ht0, sub_zero]
      exact ih hrest
    · simp only [buildDay, if_neg h1, if_neg (lt_irrefl (0 : ℚ))]
      exact ih hrest

/-- If the builder emitted any carryover note, the leftover budget is
exactly zero. -/
theorem buildDay_carr_ne_nil (pending : List TaskEntry) :
    ∀ B : ℚ, (∀ t ∈ pending, 0 ≤ t.estimated_hours) → 0 ≤ B →
      (buildDay pending B).2.1 ≠ [] → (buildDay pending B).2.2 = 0 := by
  induction pending with
  | nil => intro B _ _ hne; exact absurd rfl hne
  | cons t rest ih =>
    intro B hT hB hne
    have hrest : ∀ u ∈ rest, 0 ≤ u.estimated_hours :=
      fun u hu => hT u (List.mem_cons_of_mem t hu)
    by_cases h1 : t.estimated_hours ≤ B
    · simp only [buildDay, if_pos h1] at hne ⊢
      exact ih (B - t.estimated_hours) hrest
        (by linarith [hT t (List.mem_cons_self t rest)]) hne
    · by_cases h3 : 0 < B
      · simp only [buildDay, if_neg h1, if_pos h3]
        exact buildDay_budget_zero rest hrest
      · have hB0 : B = 0 := le_antisymm (not_lt.1 h3) hB
        subst hB0
        simp only [buildDay, if_neg h1, if_neg h3]
        exact buildDay_budget_zero rest hrest

/-- If the builder emitted no carryover note, every pending task was
assigned in full, in order. -/
theorem buildDay_carr_nil (pending : List TaskEntry) :
    ∀ B : ℚ, (buildDay pending B).2.1 = [] → (buildDay pending B).1 = pending := by
  induction pending with
  | nil => intro B _; rfl
  | cons t rest ih =>
    intro B hnil
    by_cases h1 : t.estimated_hours ≤ B
    · simp only [buildDay, if_pos h1] at hnil ⊢
      rw [ih (B - t.estimated_hours) hnil]
    · by_cases h3 : 0 < B
      · simp [buildDay, if_neg h1, if_pos h3] at hnil
      · simp [buildDay, if_neg h1, if_neg h3] at hnil

/-- Claim C6: budget conservation of the greedy builder.  For every
pending task list with non-negative estimates and every non-negative
budget, the assigned hours never exceed the budget, and they equal the
budget unless every pending task was assigned in full (the builder
returned the pending list itself). -/
theorem claim_C6 (pending : List TaskEntry) (B : ℚ)
    (hT : ∀ t ∈ pending, 0 ≤ t.estimated_hours) (hB : 0 ≤ B) :
    sumHours (buildDay pending B).1 ≤ B ∧
      ((buildDay pending B).1 ≠ pending → sumHours (buildDay pending B).1 = B) := by
  obtain ⟨hsum, hnn⟩ := buildDay_sum_budget pending B hT hB
  refine ⟨by linarith, fun hne => ?_⟩
  have hcarr : (buildDay pending B).2.1 ≠ [] := by
    intro hnil
    exact hne (buildDay_carr_nil pending B hnil)
  have h0 := buildDay_carr_ne_nil pending B hT hB hcarr
  linarith [h0, hsum]

/-- Witness for C6 at the concrete input A:3, B:5 with budget 4. -/
theorem claim_C6_witness :
    sumHours (buildDay [⟨"A", 3⟩, ⟨"B", 5⟩] 4).1 ≤ 4 ∧
      ((buildDay [⟨"A", 3⟩, ⟨"B", 5⟩] 4).1 ≠ [⟨"A", 3⟩, ⟨"B", 5⟩] →
        sumHours (buildDay [⟨"A", 3⟩, ⟨"B", 5⟩] 4).1 = 4) :=
  claim_C6 [⟨"A", 3⟩, ⟨"B", 5⟩] 4
    (by intro t ht; simp at ht; rcases ht with h | h <;> subst h <;> norm_num)
    (by norm_num)

/-- Claim C7: exhaustiveness of the greedy builder.  Every pending task
either appears (fully or partially) among the assigned tasks of the day,
or contributes a carryover note, for every budget. -/
theorem claim_C7 (pending : List TaskEntry) (B : ℚ) (t : TaskEntry) (ht : t ∈ pending) :
    t.task ∈ (buildDay pending B).1.map TaskEntry.task ∨
      ∃ h : ℚ, noteLeft t.task h ∈ (buildDay pending B).2.1 ∨
        noteRest t.task h ∈ (buildDay pending B).2.1 := by
  induction pending generalizing B with
  | nil => cases ht
  | cons u rest ih =>
    rcases List.mem_cons.1 ht with rfl | hmem
    · by_cases h1 : t.estimated_hours ≤ B
      · left
        simp [buildDay, if_pos h1]
      · by_cases h3 : 0 < B
        · left
          simp [buildDay, if_neg h1, if_pos h3]
        · right
          exact ⟨t.estimated_hours, Or.inr (by simp [buildDay, if_neg h1, if_neg h3])⟩
    · by_cases h1 : u.estimated_hours ≤ B
      · rcases ih (B - u.estimated_hours) hmem with hl | ⟨h, hc⟩
        · left; simp only [buildDay, if_pos h1, List.map_cons]
          exact List.mem_cons_of_mem _ hl
        · right; exact ⟨h, by simpa [buildDay, if_pos h1] using hc⟩
      · by_cases h3 : 0 < B
        · rcases ih 0 hmem with hl | ⟨h, hc⟩
          · left; simp only [buildDay, if_neg h1, if_pos h3, List.map_cons]
            exact List.mem_cons_of_mem _ hl
          · right
            refine ⟨h, ?_⟩
            rcases hc with hc | hc
            · exact Or.inl (by simp [buildDay, if_neg h1, if_pos h3, hc])
            · exact Or.inr (by simp [buildDay, if_neg h1, if_pos h3, hc])
        · rcases ih B hmem with hl | ⟨h, hc⟩
          · left; simpa [buildDay, if_neg h1, if_neg h3] using hl
          · right
            refine ⟨h, ?_⟩
            rcases hc with hc | hc
            · exact Or.inl (by simp [buildDay, if_neg h1, if_neg h3, hc])
            · exact Or.inr (by simp [buildDay, if_neg h1, if_neg h3, hc])

/-- Witness for C7 at the concrete pending list W:2, X:9 with budget 4. -/
theorem claim_C7_witness :
    (⟨"X", 9⟩ : TaskEntry).task ∈ (buildDay [⟨"W", 2⟩, ⟨"X", 9⟩] 4).1.map TaskEntry.task ∨
      ∃ h : ℚ, noteLeft (⟨"X", 9⟩ : TaskEntry).task h ∈ (buildDay [⟨"W", 2⟩, ⟨"X", 9⟩] 4).2.1 ∨
        noteRest (⟨"X", 9⟩ : TaskEntry).task h ∈ (buildDay [⟨"W", 2⟩, ⟨"X", 9⟩] 4).2.1 :=
  claim_C7 [⟨"W", 2⟩, ⟨"X", 9⟩] 4 ⟨"X", 9⟩ (by simp)

/-- Peeling one step off the end of an iteration chain. -/
theorem iterSteps_succ_outer (sw wdpw n : Nat) (st : Nat × Nat) :
    iterSteps sw wdpw (n + 1) st = calStep sw wdpw (iterSteps sw wdpw n st) := by
  induction n generalizing st with
  | zero => rfl
  | succ n ih =>
    show iterSteps sw wdpw (n + 1) (calStep sw wdpw st) = _
    rw [ih (calStep sw wdpw st)]
    rfl

/-- Splitting an iteration chain. -/
theorem iterSteps_add (sw wdpw m n : Nat) (st : Nat × Nat) :
    iterSteps sw wdpw (m + n) st = iterSteps sw wdpw m (iterSteps sw wdpw n st) := by
  induction m with
  | zero => simp [iterSteps]
  | succ m ih =>
    have h1 : m + 1 + n = m + n + 1 := by omega
    rw [h1, iterSteps_succ_outer, iterSteps_succ_outer, ih]

/-- The offset advances by exactly one calendar day per step. -/
theorem iterSteps_fst (sw wdpw n : Nat) (st : Nat × Nat) :
    (iterSteps sw wdpw n st).1 = st.1 + n := by
  induction n generalizing st with
  | zero => rfl
  | succ n ih =>
    show (iterSteps sw wdpw n (calStep sw wdpw st)).1 = _
    rw [ih]
    simp [calStep]
    omega

/-- One step never decreases the days_added counter. -/
theorem calStep_snd_le (sw wdpw : Nat) (st : Nat × Nat) :
    st.2 ≤ (calStep sw wdpw st).2 := by
  simp only [calStep]
  split <;> omega

/-- Iteration never decreases the days_added counter. -/
theorem iterSteps_snd_mono (sw wdpw n : Nat) (st : Nat × Nat) :
    st.2 ≤ (iterSteps sw wdpw n st).2 := by
  induction n generalizing st with
  | zero => exact Nat.le_refl _
  | succ n ih =>
    calc st.2 ≤ (calStep sw wdpw st).2 := calStep_snd_le sw wdpw st
    _ ≤ (iterSteps sw wdpw n (calStep sw wdpw st)).2 := ih _
    _ = (iterSteps sw wdpw (n + 1) st).2 := rfl

/-- Any 7 consecutive calendar days contain at least one counted working
day once working_days_per_week is at least 1, because some stepped-to
date has weekday index 0. -/
theorem iterSteps_seven_progress (sw wdpw : Nat) (hw : 1 ≤ wdpw) (st : Nat × Nat) :
    st.2 + 1 ≤ (iterSteps sw wdpw 7 st).2 := by
  set r := (sw + st.1) % 7 with hr
  have hr7 : r < 7 := Nat.mod_lt _ (by omega)
  set k := 7 - r with hk
  have hk1 : 1 ≤ k := by omega
  have hk7 : k ≤ 7 := by omega
  have hstep : st.2 + 1 ≤ (iterSteps sw wdpw k st).2 := by
    have hkeq : k = (k - 1) + 1 := by omega
    rw [hkeq, iterSteps_succ_outer]
    have hfst : (iterSteps sw wdpw (k - 1) st).1 = st.1 + (k - 1) :=
      iterSteps_fst sw wdpw (k - 1) st
    have hmod : (sw + ((iterSteps sw wdpw (k - 1) st).1 + 1)) % 7 = 0 := by
      rw [hfst]
      have hdm := Nat.div_add_mod (sw + st.1) 7
      have : sw + (st.1 + (k - 1) + 1) = 7 * ((sw + st.1) / 7 + 1) := by omega
      rw [this]
      exact Nat.mul_mod_right _ _
    have hcond : (sw + ((iterSteps sw wdpw (k - 1) st).1 + 1)) % 7 < wdpw := by
      rw [hmod]; omega
    have hmono := iterSteps_snd_mono sw wdpw (k - 1) st
    simp only [calStep, if_pos hcond]
    omega
  have h7 : (7 : Nat) = (7 - k) + k := by omega
  have hsplit : iterSteps sw wdpw 7 st = iterSteps sw wdpw (7 - k) (iterSteps sw wdpw k st) := by
    conv_lhs => rw [h7]
    rw [iterSteps_add]
  calc st.2 + 1 ≤ (iterSteps sw wdpw k st).2 := hstep
  _ ≤ (iterSteps sw wdpw (7 - k) (iterSteps sw wdpw k st)).2 := iterSteps_snd_mono _ _ _ _
  _ = (iterSteps sw wdpw 7 st).2 := by rw [hsplit]

/-- After 7 m steps from the initial loop state the counter reaches at
least 1 + m (given at least one working day per week). -/
theorem iterSteps_mul7 (sw wdpw : Nat) (hw : 1 ≤ wdpw) (m : Nat) :
    1 + m ≤ (iterSteps sw wdpw (7 * m) (0, 1)).2 := by
  induction m with
  | zero => simp [iterSteps]
  | succ m ih =>
    have h1 : 7 * (m + 1) = 7 + 7 * m := by omega
    rw [h1, iterSteps_add]
    have := iterSteps_seven_progress sw wdpw hw (iterSteps sw wdpw (7 * m) (0, 1))
    omega

/-- The fueled loop produces a date as soon as enough fuel is available to
reach the target counter along the step chain. -/
theorem calRun_of_reach (sw wdpw dn : Nat) :
    ∀ fuel (st : Nat × Nat), (∃ j ≤ fuel, dn ≤ (iterSteps sw wdpw j st).2) →
      ∃ off, calRun sw wdpw dn fuel st = some off := by
  intro fuel
  induction fuel with
  | zero =>
    intro st ⟨j, hj, hdn⟩
    have hj0 : j = 0 := Nat.le_zero.1 hj
    subst hj0
    have hd : dn ≤ st.2 := hdn
    refine ⟨st.1, ?_⟩
    simp only [calRun, if_neg (by omega : ¬ st.2 < dn)]
  | succ fuel ih =>
    intro st ⟨j, hj, hdn⟩
    by_cases hlt : st.2 < dn
    · have hj0 : j ≠ 0 := by
        intro h
        subst h
        have hd : dn ≤ st.2 := hdn
        omega
      obtain ⟨j', rfl⟩ : ∃ j', j = j' + 1 := ⟨j - 1, by omega⟩
      have hdn' : dn ≤ (iterSteps sw wdpw j' (calStep sw wdpw st)).2 := hdn
      obtain ⟨off, hoff⟩ := ih (calStep sw wdpw st) ⟨j', by omega, hdn'⟩
      exact ⟨off, by simp only [calRun, if_pos hlt]; exact hoff⟩
    · exact ⟨st.1, by simp only [calRun, if_neg hlt]⟩

/-- Claim C10: the calendar loop terminates for every day number at least
1 provided the effective working_days_per_week value is at least 1 (the
fuel 7 times the day number that generate_day_plan allots suffices), and
the hypothesis is necessary: with the value 0 and a day number of at
least 2 the counter never advances and the loop runs every fuel out. -/
theorem claim_C10 :
    (∀ sw wdpw dn : Nat, 1 ≤ wdpw → 1 ≤ dn →
        ∃ off, dateForDayOffset sw wdpw dn = some off) ∧
      (∀ sw dn fuel : Nat, 2 ≤ dn → calRun sw 0 dn fuel (0, 1) = none) := by
  constructor
  · intro sw wdpw dn hw hdn
    apply calRun_of_reach
    refine ⟨7 * (dn - 1), by omega, ?_⟩
    have := iterSteps_mul7 sw wdpw hw (dn - 1)
    omega
  · intro sw dn fuel hdn
    have key : ∀ fuel (st : Nat × Nat), st.2 < dn → calRun sw 0 dn fuel st = none := by
      intro fuel
      induction fuel with
      | zero => intro st hst; simp only [calRun, if_pos hst]
      | succ fuel ih =>
        intro st hst
        have hsnd : (calStep sw 0 st).2 = st.2 := by
          simp [calStep]
        simp only [calRun, if_pos hst]
        exact ih _ (by omega)
    exact key fuel (0, 1) (by omega)

/-- Witness for C10: termination at start weekday 3 with 2 working days
per week and day number 9, and divergence at weekly value 0, day 5, even
with fuel 1000. -/
theorem claim_C10_witness :
    (∃ off, dateForDayOffset 3 2 9 = some off) ∧ calRun 4 0 5 1000 (0, 1) = none :=
  ⟨claim_C10.1 3 2 9 (by omega) (by omega), claim_C10.2 4 5 1000 (by omega)⟩

/-- Claim C8: day 1 maps to the start date itself (offset 0) for every
start weekday and week length; a stepped-to date is counted exactly when
its weekday index is below working_days_per_week, otherwise skipped
uncounted; and for a Monday start with 5 working days per week, day 6
lands 7 calendar days later (2024-01-01 to 2024-01-08). -/
theorem claim_C8 :
    (∀ sw wdpw : Nat, dateForDayOffset sw wdpw 1 = some 0) ∧
      (∀ (sw wdpw : Nat) (st : Nat × Nat),
        calStep sw wdpw st
          = (st.1 + 1, if (sw + (st.1 + 1)) % 7 < wdpw then st.2 + 1 else st.2)) ∧
      dateForDayOffset 0 5 6 = some 7 := by
  refine ⟨?_, ?_, by decide⟩
  · intro sw wdpw
    simp [dateForDayOffset, calRun]
  · intro sw wdpw st
    rfl

/-- Flattening a map over a list whose images are all empty gives the
empty list. -/
theorem flatten_map_eq_nil {α β : Type} (f : α → List β) :
    ∀ l : List α, (∀ e ∈ l, f e = []) → (l.map f).flatten = [] := by
  intro l
  induction l with
  | nil => intro; rfl
  | cons e es ih =>
    intro h
    simp [h e (List.mem_cons_self e es), ih (fun x hx => h x (List.mem_cons_of_mem e hx))]

/-- The plan depends on the completion log only through the two whole-log
scans: two projects equal in every other consulted field and with equal
completed-task scans and equal carryover scans yield equal plans. -/
theorem generate_day_plan_log_congr (p q : Project)
    (h1 : q.developer_tasks = p.developer_tasks)
    (h2 : q.base_hours_required = p.base_hours_required)
    (h3 : q.total_duration_days = p.total_duration_days)
    (h4 : q.start_date = p.start_date)
    (h5 : completedTaskSet q.completion_log = completedTaskSet p.completion_log)
    (h6 : carryoverList q.completion_log = carryoverList p.completion_log)
    (sa : Option Nat) (now dn : Nat) :
    generate_day_plan q sa now dn = generate_day_plan p sa now dn := by
  simp only [generate_day_plan, h1, h2, h3, h4, h5, h6]

/-- Claim C1 (amended): the plan ignores the day_number field of log
entries entirely and scans the whole log; what holds is that appending
entries whose completed_tasks and carryover are both empty (in
particular, every entry that log_completed_tasks itself writes) leaves
the returned plan unchanged, for every requested day. -/
theorem claim_C1_amended (p : Project) (extra : List LogEntry) (sa : Option Nat) (now dn : Nat)
    (h : ∀ e ∈ extra, e.completed_tasks = [] ∧ e.carryover = []) :
    generate_day_plan { p with completion_log := p.completion_log ++ extra } sa now dn
      = generate_day_plan p sa now dn := by
  apply generate_day_plan_log_congr <;> try rfl
  · show completedTaskSet (p.completion_log ++ extra) = _
    unfold completedTaskSet
    rw [List.map_append, List.flatten_append,
      flatten_map_eq_nil _ extra (fun e he => (h e he).1), List.append_nil]
  · show carryoverList (p.completion_log ++ extra) = _
    unfold carryoverList
    rw [List.map_append, List.flatten_append,
      flatten_map_eq_nil _ extra (fun e he => (h e he).2), List.append_nil]

/-- Witness for the amended C1: appending a placeholder day-9 entry does
not change the day-1 plan of C1projA. -/
theorem claim_C1_witness :
    generate_day_plan { C1projA with completion_log := C1projA.completion_log ++ [⟨9, [], [], []⟩] }
        none 0 1
      = generate_day_plan C1projA none 0 1 :=
  claim_C1_amended C1projA [⟨9, [], [], []⟩] none 0 1 (by simp)

/-- Counterexample to C1 as stated: adding a log entry whose day_number 5
is not below the requested day 1 changes the day-1 plan (the entry marks
task A completed, so the task list flips from A to empty). -/
theorem claim_C1_counterexample :
    1 ≤ C1entry.day ∧
      generate_day_plan C1projB none 0 1 ≠ generate_day_plan C1projA none 0 1 := by
  refine ⟨by norm_num [C1entry], ?_⟩
  intro h
  have hA : (generate_day_plan C1projA none 0 1).map DayPlan.tasks = .ok [⟨"A", 2⟩] := by
    norm_num [generate_day_plan, C1projA, normalizeTasks, extract_int, completedTaskSet,
      carryoverList, buildDay, recToTask, Except.map, RawTask.isRec, List.all, List.filterMap,
      List.filter]
  have hB : (generate_day_plan C1projB none 0 1).map DayPlan.tasks = .ok [] := by
    norm_num [generate_day_plan, C1projB, C1projA, C1entry, normalizeTasks, extract_int,
      completedTaskSet, carryoverList, buildDay, recToTask, Except.map, List.contains,
      RawTask.isRec, List.all, List.filterMap, List.filter]
  rw [h, hA] at hB
  simp at hB

/-- Counterexample to C2 as stated: on the spec scenario (backlog Design 5,
Build 10, Test 3, effective daily hours 4, empty log) the carryover list
of the returned day-1 plan is not the three overflow notes. -/
theorem claim_C2_counterexample :
    (generate_day_plan C2proj none 0 1).map DayPlan.carryover_from_previous_days
      ≠ .ok ["Design (1 hour(s) left)", "Build (10 hour(s))", "Test (3 hour(s))"] := by
  have h : (generate_day_plan C2proj none 0 1).map DayPlan.carryover_from_previous_days
      = .ok [] := by
    norm_num [generate_day_plan, C2proj, normalizeTasks, extract_int, completedTaskSet,
      carryoverList, buildDay, recToTask, Except.map, RawTask.isRec, List.all, List.filterMap,
      List.filter]
  rw [h]
  simp

/-- Claim C2 (amended): on the spec scenario the returned day-1 plan has
tasks Design:4 as claimed, but its returned carryover list is the log
scan, empty here; the three overflow notes are computed internally by the
builder (carryover_today) and are not part of the returned plan. -/
theorem claim_C2_amended :
    (generate_day_plan C2proj none 0 1).map DayPlan.tasks = .ok [⟨"Design", 4⟩] ∧
      (generate_day_plan C2proj none 0 1).map DayPlan.carryover_from_previous_days = .ok [] ∧
      (buildDay [⟨"Design", 5⟩, ⟨"Build", 10⟩, ⟨"Test", 3⟩] 4).2.1
        = ["Design (1 hour(s) left)", "Build (10 hour(s))", "Test (3 hour(s))"] := by
  refine ⟨?_, ?_, ?_⟩
  · norm_num [generate_day_plan, C2proj, normalizeTasks, extract_int, completedTaskSet,
      carryoverList, buildDay, recToTask, Except.map, RawTask.isRec, List.all, List.filterMap,
      List.filter]
  · norm_num [generate_day_plan, C2proj, normalizeTasks, extract_int, completedTaskSet,
      carryoverList, buildDay, recToTask, Except.map, RawTask.isRec, List.all, List.filterMap,
      List.filter]
  · norm_num [buildDay, noteLeft, noteRest, hoursStr]
    decide

/-- Claim C3 (amended): log_completed_tasks performs no sequencing check
and never fails with OutOfOrderDay.  On an existing project it appends,
for every day_number whatsoever, exactly one entry (with the given day
number, the raw payload, and empty completed_tasks and carryover) and
sets the pointer to day_number + 1; only the named project row changes. -/
theorem claim_C3_amended (db : DB) (pid dn : Nat) (ch : List (String × ℚ)) (p : Project)
    (h : findProject db pid = some p) :
    log_completed_tasks db pid dn ch
      = .ok (updateProject db pid
          { p with completion_log := p.completion_log ++ [⟨dn, ch, [], []⟩]
                   current_day := some (dn + 1) }) := by
  simp only [log_completed_tasks, h]

/-- Witness for the amended C3: the sequential call with day 2 on the
C3 store appends one entry and moves the pointer to 3. -/
theorem claim_C3_witness :
    log_completed_tasks C3db 1 2 []
      = .ok (updateProject C3db 1
          { C3proj with completion_log := C3proj.completion_log ++ [⟨2, [], [], []⟩]
                        current_day := some 3 }) :=
  claim_C3_amended C3db 1 2 [] C3proj rfl

/-- Counterexample to C3 as stated: day_number 5 differs from
len(log) + 1 = 1, yet the call succeeds, appends the entry and sets the
pointer to 6, instead of failing with OutOfOrderDay and leaving the state
unchanged. -/
theorem claim_C3_counterexample :
    (5 ≠ C3proj.completion_log.length + 1) ∧
      log_completed_tasks C3db 1 5 []
        = .ok [(1, { C3proj with completion_log := [⟨5, [], [], []⟩]
                                 current_day := some 6 })] :=
  ⟨by simp [C3proj], rfl⟩

/-- Claim C9: plan reads never mutate the store — generate_day_plan and
get_current_day_plan return the store unchanged — and log_completed_tasks
is the sole mutation, which changes only the completion_log and
current_day fields of the addressed project (backlog, estimate columns
and start date are carried over intact). -/
theorem claim_C9 (db : DB) (pid : Nat) (sa : Option Nat) (now dn : Nat)
    (ch : List (String × ℚ)) :
    (generate_day_plan_db db pid sa now dn).2 = db ∧
      (get_current_day_plan_db db pid now).2 = db ∧
      (∀ p, findProject db pid = some p →
        log_completed_tasks db pid dn ch
          = .ok (updateProject db pid
              { p with completion_log := p.completion_log ++ [⟨dn, ch, [], []⟩]
                       current_day := some (dn + 1) })) := by
  refine ⟨?_, ?_, ?_⟩
  · unfold generate_day_plan_db
    cases findProject db pid <;> rfl
  · unfold get_current_day_plan_db
    cases findProject db pid <;> rfl
  · intro p h
    simp only [log_completed_tasks, h]

/-- Witness for C9 on the concrete one-project store C9db. -/
theorem claim_C9_witness :
    (generate_day_plan_db C9db 7 none 0 1).2 = C9db ∧
      (get_current_day_plan_db C9db 7 0).2 = C9db ∧
      log_completed_tasks C9db 7 1 []
        = .ok (updateProject C9db 7
            { C9proj with completion_log := C9proj.completion_log ++ [⟨1, [], [], []⟩]
                          current_day := some 2 }) := by
  have h := claim_C9 C9db 7 none 0 1 []
  exact ⟨h.1, h.2.1, h.2.2 C9proj rfl⟩

/-- Claim C4, evaluated at the failing input: with the stored estimate
strings "120 hours" and "30 working days" the plan is budgeted with 120
hours per day (the number mined from base_hours_required, not a stored
daily_hours parameter — no such column exists) and the calendar advance
treats every day of the week as working (weekday below 30 always holds),
so from a Saturday start day 3 lands 2 calendar days later, whereas the
5-working-day week of the request parameters would give 3. -/
theorem claim_C4 :
    (generate_day_plan C4proj none 0 1).map DayPlan.planned_hours = .ok 120 ∧
      extract_int C4proj.base_hours_required 4 = 120 ∧
      extract_int C4proj.total_duration_days 5 = 30 ∧
      dateForDayOffset 5 30 3 = some 2 ∧
      dateForDayOffset 5 5 3 = some 3 := by
  refine ⟨?_, by decide, by decide, by decide, by decide⟩
  have h1 : extract_int (some "120 hours") 4 = 120 := by decide
  have h2 : extract_int (some "30 working days") 5 = 30 := by decide
  norm_num [generate_day_plan, C4proj, h1, h2, normalizeTasks, completedTaskSet,
    carryoverList, buildDay, recToTask, Except.map, RawTask.isRec, List.all, List.filterMap,
    List.filter]

/-- Counterexample to C5 as stated: a record entry whose estimated_hours
is 0, not a positive number, is accepted by the backlog intake without
any failure. -/
theorem claim_C5_counterexample :
    normalizeTasks [.rrec "A" (some 0)] = .ok [⟨"A", 0⟩] ∧ ¬ (0 : ℚ) < 0 :=
  ⟨rfl, lt_irrefl 0⟩

/-- Claim C5 (amended): the backlog intake never fails with
MalformedBacklog on any raw backlog; every all-record backlog is accepted
verbatim with missing estimates defaulted to 1 and no positivity check
(mixed string and record backlogs fail, but with a generic type error). -/
theorem claim_C5_amended :
    (∀ raw : List RawTask, normalizeTasks raw ≠ .error .malformedBacklog) ∧
      (∀ raw : List RawTask, (∀ r ∈ raw, r.isRec = true) →
        normalizeTasks raw = .ok (raw.filterMap recToTask)) := by
  constructor
  · intro raw
    cases raw with
    | nil => simp [normalizeTasks]
    | cons t ts =>
      cases t with
      | rstr s =>
        simp only [normalizeTasks]
        split <;> simp
      | rrec n e =>
        simp only [normalizeTasks]
        split <;> simp
  · intro raw h
    cases raw with
    | nil => rfl
    | cons t ts =>
      cases t with
      | rstr s => exact absurd (h _ (List.mem_cons_self _ _)) (by simp [RawTask.isRec])
      | rrec n e =>
        have hall : ((RawTask.rrec n e) :: ts).all RawTask.isRec = true := by
          rw [List.all_eq_true]
          exact h
        simp only [normalizeTasks, if_pos hall]

/-- Witness for the amended C5: a record backlog with one missing and one
present estimate is accepted. -/
theorem claim_C5_witness :
    normalizeTasks [.rrec "B" none, .rrec "C" (some 3)]
      = .ok ([RawTask.rrec "B" none, RawTask.rrec "C" (some 3)].filterMap recToTask) :=
  claim_C5_amended.2 _ (by decide)

end PlanPilot
